import Mathlib

/-!
Verification of the HRAS backend (hras_backend): a shallow embedding of the
patient-assignment engine (core/utils/assignment.py), the patient access-control
layer (core/views.py, accounts/permissions.py, core/permissions.py), the
user-approval workflow (accounts/serializers.py, accounts/views.py) and the
nurse patient serializer (core/serializers.py), together with theorems settling
the specified properties.

Database rows are embedded as Lean structures and the database as lists of
rows; Django querysets become list filters, with the list order standing for
the unspecified database row order, and queryset `.first()` becoming `head?`.
-/

namespace Hras

/-- A user row of accounts.models.CustomUser: role string, nullable hospital
foreign key, the approval and active flags, plus the request-level
is_authenticated property of the principal making a request. -/
structure User where
  id : Nat
  role : String
  hospitalId : Option Nat
  is_approved : Bool
  is_active : Bool
  isAuthenticated : Bool
deriving DecidableEq

/-- A patient row of core.models.Patient (the fields the engine and the
access layer read: primary key, hospital foreign key, priority string, and
admission date as an integer time coordinate). -/
structure Patient where
  id : Nat
  hospitalId : Nat
  priority : String
  admissionDate : Int
deriving DecidableEq

/-- A resource row of core.models.Resource: type string ("Bed" for beds) and
the availability flag. -/
structure Resource where
  id : Nat
  hospitalId : Nat
  rtype : String
  availability : Bool
deriving DecidableEq

/-- An assignment row of core.models.Assignment: patient, resource and staff
user foreign keys, and assignment_time (duration from admission). -/
structure Assignment where
  id : Nat
  patientId : Nat
  resourceId : Nat
  userId : Nat
  assignmentTime : Int
deriving DecidableEq

/-- The database state: the row lists and the next fresh assignment primary
key. -/
structure DB where
  users : List User
  patients : List Patient
  resources : List Resource
  assignments : List Assignment
  nextAssignmentId : Nat
deriving DecidableEq

/-- The candidate filter of _find_available_staff (assignment.py lines
156-161): same hospital, given role, is_approved=True, is_active=True. -/
def isCandidate (hid : Nat) (role : String) (u : User) : Bool :=
  u.hospitalId == some hid && u.role == role && u.is_approved && u.is_active

/-- The workload annotation of _find_available_staff (lines 161-166): the
count of a user's assignment rows (the patient foreign key is non-nullable,
so the Q(assignments__patient__isnull=False) filter keeps every row). -/
def workload (db : DB) (u : User) : Nat :=
  (db.assignments.filter (fun a => a.userId == u.id)).length

/-- order_by('active_assignments').first(): the first list element whose
weight is minimal (an element with strictly smaller weight later in the list
wins, ties keep the earlier element; the tie order is unspecified in the
source and this is one fixed resolution of it). -/
def minByFirst (w : α → Nat) : List α → Option α
  | [] => none
  | x :: xs =>
    match minByFirst w xs with
    | none => some x
    | some b => if w b < w x then some b else some x

/-- _find_available_staff (assignment.py lines 131-168): among approved,
active staff of the given role in the hospital, the one with the fewest
current assignments. -/
def find_available_staff (db : DB) (hid : Nat) (role : String) : Option User :=
  minByFirst (workload db) (db.users.filter (isCandidate hid role))

/-- The priority test of assign_patient (line 64):
patient.priority in ['High', 'Critical']. -/
def isHighPriority (p : Patient) : Bool :=
  p.priority == "High" || p.priority == "Critical"

/-- The staff-selection phase of assign_patient (lines 62-74): doctors first
then nurses for High/Critical, nurses first then doctors otherwise. -/
def pickStaff (db : DB) (p : Patient) : Option User :=
  if isHighPriority p then
    match find_available_staff db p.hospitalId "doctor" with
    | some s => some s
    | none => find_available_staff db p.hospitalId "nurse"
  else
    match find_available_staff db p.hospitalId "nurse" with
    | some s => some s
    | none => find_available_staff db p.hospitalId "doctor"

/-- The bed query of assign_patient (lines 83-87) and reassign_patient (lines
191-195): first Resource of the hospital with type 'Bed' and
availability=True. -/
def findAvailableBed (db : DB) (hid : Nat) : Option Resource :=
  (db.resources.filter (fun r => r.hospitalId == hid && r.rtype == "Bed" && r.availability)).head?

/-- The Assignment.objects.create payload (assignment.py lines 102-107 and
209-214): fresh primary key, the patient, the selected bed and staff member,
and assignment_time = now - admission (lines 95-99). -/
def mkAssign (db : DB) (p : Patient) (staffId bedId : Nat) (now : Int) : Assignment :=
  { id := db.nextAssignmentId
    patientId := p.id
    resourceId := bedId
    userId := staffId
    assignmentTime := now - p.admissionDate }

/-- The bed-acquisition tail shared by assign_patient (lines 83-119) and
reassign_patient (lines 191-222): find the first available bed (None and no
write if there is none), create the Assignment row, flip the bed's
availability to False. -/
def allocateBed (db : DB) (p : Patient) (staffId : Nat) (now : Int) :
    Option Assignment × DB :=
  match findAvailableBed db p.hospitalId with
  | none => (none, db)
  | some bed =>
    let a := mkAssign db p staffId bed.id now
    (some a,
      { db with
        assignments := db.assignments ++ [a]
        resources := db.resources.map
          (fun r => if r.id = bed.id then { r with availability := false } else r)
        nextAssignmentId := db.nextAssignmentId + 1 })

/-- assign_patient (assignment.py lines 33-128), the run that completes
before the 10-second alarm: pick staff by priority and workload (None and no
write if neither class has a candidate), then acquire a bed and create the
Assignment. The @transaction.atomic decorated body is a single state
transition. -/
def assign_patient (db : DB) (p : Patient) (now : Int) : Option Assignment × DB :=
  match pickStaff db p with
  | none => (none, db)
  | some s => allocateBed db p s.id now

/-- The release loop of reassign_patient (lines 183-188): flip every bed held
by one of the patient's assignments back to availability=True, then delete
those assignment rows. -/
def releasePatient (db : DB) (p : Patient) : DB :=
  { db with
    resources := db.resources.map
      (fun r => if (db.assignments.filter (fun a => a.patientId == p.id)).any
          (fun a => a.resourceId == r.id) then { r with availability := true } else r)
    assignments := db.assignments.filter (fun a => !(a.patientId == p.id)) }

/-- reassign_patient (assignment.py lines 171-222): release all of the
patient's assignments, then acquire a bed for the new staff member (None if
no bed is available after the release, leaving the patient unassigned). -/
def reassign_patient (db : DB) (p : Patient) (newStaff : User) (now : Int) :
    Option Assignment × DB :=
  allocateBed (releasePatient db p) p newStaff.id now

/-- The number of primitive database writes on the success path of
assign_patient: the Assignment insert (line 102) and the bed availability
update (lines 110-111). -/
def assignWriteCount : Nat := 2

/-- assign_patient when the 10-second SIGALRM deadline fires after k of the
success-path writes have executed (assignment.py lines 58-60 set the alarm;
the handler raises AssignmentTimeoutError at the interrupted point). The
except-clause at lines 121-124 catches the error inside the
@transaction.atomic decorated function and returns None, so the exception
never reaches the atomic block's exit and Django commits the writes already
performed: k = 0 interrupts before the insert, k = 1 between the insert and
the bed flip (committing an Assignment whose bed stays available), and
k ≥ 2 means the run completed and cancelled the alarm. -/
def assign_patient_timeout (db : DB) (p : Patient) (now : Int) (k : Nat) :
    Option Assignment × DB :=
  match pickStaff db p with
  | none => (none, db)
  | some s =>
    match findAvailableBed db p.hospitalId with
    | none => (none, db)
    | some bed =>
      if k = 0 then (none, db)
      else if k = 1 then
        (none,
          { db with
            assignments := db.assignments ++ [mkAssign db p s.id bed.id now]
            nextAssignmentId := db.nextAssignmentId + 1 })
      else assign_patient db p now

/-- The number of assignment rows referencing a patient. -/
def patientAssignCount (db : DB) (pid : Nat) : Nat :=
  (db.assignments.filter (fun a => a.patientId == pid)).length

/-- The number of assignment rows referencing a resource. -/
def resAssignCount (db : DB) (rid : Nat) : Nat :=
  (db.assignments.filter (fun a => a.resourceId == rid)).length

/-- The assignment/bed coupling of the engine: every assignment's resource
row exists and is unavailable, no resource is referenced by more than one
assignment, and every unavailable bed is referenced by some assignment. -/
def BedInvariant (db : DB) : Prop :=
  (∀ a ∈ db.assignments, ∃ r ∈ db.resources, r.id = a.resourceId ∧ r.availability = false)
  ∧ (∀ r ∈ db.resources, resAssignCount db r.id ≤ 1)
  ∧ (∀ r ∈ db.resources, r.rtype = "Bed" → r.availability = false →
      ∃ a ∈ db.assignments, a.resourceId = r.id)

/-- Resource rows have pairwise distinct primary keys. -/
def ResIdsNodup (db : DB) : Prop :=
  (db.resources.map Resource.id).Nodup

instance : DecidablePred BedInvariant := by
  intro db
  unfold BedInvariant
  infer_instance

instance : DecidablePred ResIdsNodup := by
  intro db
  unfold ResIdsNodup
  infer_instance

/-- A doctor of hospital 1, approved and active. -/
def exDoctor : User :=
  { id := 1, role := "doctor", hospitalId := some 1
    is_approved := true, is_active := true, isAuthenticated := true }

/-- A low-priority patient of hospital 1. -/
def exPatient : Patient :=
  { id := 1, hospitalId := 1, priority := "Low", admissionDate := 0 }

/-- Bed 1 of hospital 1, occupied. -/
def exBed1 : Resource :=
  { id := 1, hospitalId := 1, rtype := "Bed", availability := false }

/-- Bed 2 of hospital 1, free. -/
def exBed2 : Resource :=
  { id := 2, hospitalId := 1, rtype := "Bed", availability := true }

/-- The assignment binding exPatient to exDoctor on exBed1. -/
def exAssign1 : Assignment :=
  { id := 1, patientId := 1, resourceId := 1, userId := 1, assignmentTime := 0 }

/-- A state in which exPatient is already assigned (exAssign1 on exBed1) and
a second bed is free. -/
def exDb : DB :=
  { users := [exDoctor], patients := [exPatient]
    resources := [exBed1, exBed2], assignments := [exAssign1]
    nextAssignmentId := 2 }

/-- A state with one doctor, one free bed, and no assignment yet. -/
def exDbFresh : DB :=
  { users := [exDoctor], patients := [exPatient]
    resources := [exBed2], assignments := []
    nextAssignmentId := 1 }

/-- A state with a free bed but no staff at all. -/
def exDbNoStaff : DB :=
  { users := [], patients := [exPatient]
    resources := [exBed2], assignments := []
    nextAssignmentId := 1 }

/-- The role enumeration CustomUser.ROLE_CHOICES (accounts/models.py lines
39-45). -/
def roleChoices : List String :=
  ["super_admin", "hospital_admin", "doctor", "nurse", "receptionist"]

/-- accounts.permissions.IsAdmin.has_permission (accounts/permissions.py
lines 4-8): authenticated and role == 'admin'. -/
def accountsIsAdmin (u : User) : Bool :=
  u.isAuthenticated && u.role == "admin"

/-- core.permissions.IsAdmin.has_permission (core/permissions.py lines 3-5):
authenticated and role == 'admin'. -/
def coreIsAdmin (u : User) : Bool :=
  u.isAuthenticated && u.role == "admin"

/-- The permission gate of the UserManagementViewSet actions approve, reject,
activate, deactivate, assign_hospital and change_role (accounts/views.py
lines 70-205): permission_classes=[IsAdmin]. -/
def userManagementGate (u : User) : Bool :=
  accountsIsAdmin u

/-- The permission gate of HospitalViewSet CRUD actions (core/views.py lines
67-77): IsAuthenticated and core IsAdmin. -/
def hospitalCrudGate (u : User) : Bool :=
  u.isAuthenticated && coreIsAdmin u

/-- The outcome of a request, as surfaced over HTTP: allowed (2xx),
forbidden (403, an explicit PermissionDenied), notFound (404, object hidden
or absent), unauthorized (401). -/
inductive Outcome
  | allowed
  | forbidden
  | notFound
  | unauthorized
deriving DecidableEq

/-- PatientAccessPermission.has_permission (core/views.py lines 47-51):
authenticated and role in [receptionist, doctor, nurse, hospital_admin,
super_admin]. -/
def patientAccessPermission (u : User) : Bool :=
  u.isAuthenticated &&
    (u.role == "receptionist" || u.role == "doctor" || u.role == "nurse" ||
      u.role == "hospital_admin" || u.role == "super_admin")

/-- PatientViewSet.get_queryset (core/views.py lines 241-277): role 'admin'
sees all patients, doctors and nurses only patients linked to them by an
Assignment row, receptionists with a hospital the patients of that hospital,
every other role none. -/
def patient_queryset (db : DB) (u : User) : List Patient :=
  if ¬ u.isAuthenticated then []
  else if u.role = "admin" then db.patients
  else if u.role = "doctor" then
    db.patients.filter (fun p => db.assignments.any (fun a => a.patientId == p.id && a.userId == u.id))
  else if u.role = "nurse" then
    db.patients.filter (fun p => db.assignments.any (fun a => a.patientId == p.id && a.userId == u.id))
  else if u.role = "receptionist" ∧ u.hospitalId.isSome then
    db.patients.filter (fun p => some p.hospitalId == u.hospitalId)
  else []

/-- The retrieve action of PatientViewSet: get_permissions returns
IsAuthenticated and PatientAccessPermission for retrieve (lines 208-209), and
the object is looked up inside get_queryset, so a patient outside the
role-scoped queryset is a 404. -/
def retrieve_patient (db : DB) (u : User) (pid : Nat) : Outcome :=
  if ¬ u.isAuthenticated then Outcome.unauthorized
  else if ¬ patientAccessPermission u then Outcome.forbidden
  else if (patient_queryset db u).any (fun p => p.id == pid) then Outcome.allowed
  else Outcome.notFound

/-- The permission gate of the create action of PatientViewSet (core/views.py
lines 210-213): IsAuthenticated, PatientAccessPermission, and the IsNotNurse
and IsNotDoctor classes of accounts/permissions.py (lines 223-265), which
raise an explicit PermissionDenied for nurses and doctors. -/
def create_patient_gate (u : User) : Outcome :=
  if ¬ u.isAuthenticated then Outcome.unauthorized
  else if ¬ patientAccessPermission u then Outcome.forbidden
  else if u.role = "nurse" then Outcome.forbidden
  else if u.role = "doctor" then Outcome.forbidden
  else Outcome.allowed

/-- The two user-state flags moved by the approval workflow, with the role
(accounts/models.py). -/
structure Account where
  role : String
  is_approved : Bool
  is_active : Bool
deriving DecidableEq

/-- RegisterSerializer.create (accounts/serializers.py lines 99-132):
CustomUserManager.create_user defaults the flags to is_active=True,
is_approved=False (accounts/models.py lines 14-15), then the serializer sets
is_active=False and is_approved=False before the final save. -/
def register_create (role : String) : Account :=
  let created : Account := { role := role, is_approved := false, is_active := true }
  { created with is_active := false, is_approved := false }

/-- UserManagementViewSet.approve (accounts/views.py lines 97-108):
is_approved=True and is_active=True. -/
def approve_user (u : Account) : Account :=
  { u with is_approved := true, is_active := true }

/-- UserManagementViewSet.reject (accounts/views.py lines 110-121):
is_approved=False and is_active=False. -/
def reject_user (u : Account) : Account :=
  { u with is_approved := false, is_active := false }

/-- UserManagementViewSet.deactivate (accounts/views.py lines 123-139): a 403
error for role 'admin', otherwise only is_active is set to False. -/
def deactivate_user (u : Account) : Except String Account :=
  if u.role = "admin" then Except.error "Cannot deactivate admin accounts."
  else Except.ok { u with is_active := false }

/-- UserManagementViewSet.activate (accounts/views.py lines 141-151): only
is_active is set to True. -/
def activate_user (u : Account) : Account :=
  { u with is_active := true }

/-- The patient fields as seen by the serializer layer (core/models.py;
values kept as strings, the serializer pipeline only moves them). -/
structure PatientRecord where
  name : String
  age : String
  severity : String
  priority : String
  symptoms : String
  telephone : String
  emergency_contact : String
deriving DecidableEq

/-- The writable declared fields of NursePatientSerializer
(core/serializers.py lines 258-270): of the declared fields, id,
admission_date, assigned_nurse, assigned_doctor, priority, status, name and
age are read_only, leaving these four. -/
def nurseWritableFields : List String :=
  ["severity", "symptoms", "telephone", "emergency_contact"]

/-- The forbidden_fields list of NursePatientSerializer.validate
(core/serializers.py line 289). -/
def nurseForbiddenFields : List String :=
  ["priority", "name", "age", "admission_date", "hospital", "created_by"]

/-- DRF to_internal_value for NursePatientSerializer: request data is reduced
to the declared writable fields before validate is called; read-only and
undeclared keys are dropped without error. -/
def nurse_to_internal_value (input : List (String × String)) : List (String × String) :=
  input.filter (fun kv => nurseWritableFields.contains kv.1)

/-- NursePatientSerializer.validate (core/serializers.py lines 272-297) for a
nurse request: raise ValidationError on the first forbidden field present in
the validated data, otherwise pass the data through. -/
def nurse_validate (data : List (String × String)) : Except String (List (String × String)) :=
  match data.find? (fun kv => nurseForbiddenFields.contains kv.1) with
  | some kv => Except.error kv.1
  | none => Except.ok data

/-- Writing one validated field onto the patient instance (ModelSerializer
update setattr loop). -/
def applyField (inst : PatientRecord) (kv : String × String) : PatientRecord :=
  if kv.1 = "severity" then { inst with severity := kv.2 }
  else if kv.1 = "symptoms" then { inst with symptoms := kv.2 }
  else if kv.1 = "telephone" then { inst with telephone := kv.2 }
  else if kv.1 = "emergency_contact" then { inst with emergency_contact := kv.2 }
  else if kv.1 = "priority" then { inst with priority := kv.2 }
  else if kv.1 = "name" then { inst with name := kv.2 }
  else if kv.1 = "age" then { inst with age := kv.2 }
  else inst

/-- NursePatientSerializer.update (core/serializers.py lines 299-315) for a
nurse request: pop priority, name and age from the validated data, then apply
the rest to the instance. -/
def nurse_update (inst : PatientRecord) (validated : List (String × String)) : PatientRecord :=
  (validated.filter (fun kv =>
    !(kv.1 == "priority") && !(kv.1 == "name") && !(kv.1 == "age"))).foldl applyField inst

/-- The full DRF partial-update pipeline for a nurse PATCH on a patient:
to_internal_value, then validate, then update. -/
def nurse_patch (inst : PatientRecord) (input : List (String × String)) :
    Except String PatientRecord :=
  match nurse_validate (nurse_to_internal_value input) with
  | Except.error e => Except.error e
  | Except.ok vd => Except.ok (nurse_update inst vd)

/-- Modelled from the spec: the wiring that connects core/signals.py at app
start-up (a Django AppConfig.ready import, not under src). The spec's flow
"create Patient → capability gate → persist → Assignment Engine runs" and the
docstring of auto_assign_patient say the post_save receiver fires on every
patient creation; with that wiring, auto_assign_patient (core/signals.py
lines 9-34) calls assign_patient exactly once when created is True and never
otherwise. -/
def post_save_assign_calls (created : Bool) : Nat :=
  if created then 1 else 0

/-- The number of assign_patient invocations during one
PatientViewSet.perform_create (core/views.py lines 279-309): serializer.save
persists the patient and fires the post_save receiver, and afterwards
perform_create calls assign_patient_to_staff once more when the creator is a
receptionist (lines 308-309). -/
def perform_create_assign_calls (creatorRole : String) : Nat :=
  post_save_assign_calls true + (if creatorRole = "receptionist" then 1 else 0)

/-- A concrete patient record used to evaluate the nurse serializer
pipeline. -/
def exRecord : PatientRecord :=
  { name := "John Doe", age := "30", severity := "Moderate", priority := "Medium"
    symptoms := "Cough", telephone := "0712345678", emergency_contact := "Jane Doe" }

/-- A super_admin principal. -/
def exSuperAdmin : User :=
  { id := 9, role := "super_admin", hospitalId := none
    is_approved := true, is_active := true, isAuthenticated := true }

/-- A list holding two distinct elements has length at least two. -/
theorem two_le_length_of_mem_ne {α : Type _} {x y : α} {l : List α}
    (hx : x ∈ l) (hy : y ∈ l) (hne : x ≠ y) : 2 ≤ l.length := by
  induction l with
  | nil => cases hx
  | cons a t ih =>
    rcases List.mem_cons.mp hx with rfl | hx2
    · rcases List.mem_cons.mp hy with rfl | hy2
      · exact absurd rfl hne
      · have := List.length_pos_of_mem hy2
        simp only [List.length_cons]
        omega
    · have := List.length_pos_of_mem hx2
      simp only [List.length_cons]
      omega

/-- C10: for every user whose role is one of the five defined role values,
the IsAdmin permission check (role == 'admin', a value outside the role
enumeration) returns false, in both its copies, so every operation gated only
by IsAdmin — the UserManagementViewSet approval/rejection,
activation/deactivation, role-change and hospital-assignment actions and the
HospitalViewSet CRUD actions — denies every such user, super_admin
included. -/
theorem isAdmin_denies_every_enumerated_role (u : User) (h : u.role ∈ roleChoices) :
    accountsIsAdmin u = false ∧ coreIsAdmin u = false ∧
    userManagementGate u = false ∧ hospitalCrudGate u = false := by
  have hne : (u.role == "admin") = false := by
    simp only [roleChoices, List.mem_cons, List.not_mem_nil, or_false] at h
    rcases h with h | h | h | h | h <;> simp [h]
  refine ⟨?_, ?_, ?_, ?_⟩ <;>
    simp [accountsIsAdmin, coreIsAdmin, userManagementGate, hospitalCrudGate, hne]

/-- C10 witness: the super_admin principal is denied by every IsAdmin
gate. -/
theorem isAdmin_denies_every_enumerated_role_witness :
    accountsIsAdmin exSuperAdmin = false ∧ coreIsAdmin exSuperAdmin = false ∧
    userManagementGate exSuperAdmin = false ∧ hospitalCrudGate exSuperAdmin = false :=
  isAdmin_denies_every_enumerated_role exSuperAdmin (by decide)

/-- C8: the user-approval state machine: self-registration creates the user
unapproved and inactive; Approve sets both flags true and Reject sets both
false; Deactivate (for every enumerated role) changes only is_active to
false and Activate changes only is_active to true, leaving is_approved — and
everything else — unchanged. -/
theorem approval_state_machine (role : String) (u : Account) (h : u.role ∈ roleChoices) :
    (register_create role).is_approved = false
    ∧ (register_create role).is_active = false
    ∧ (approve_user u).is_approved = true ∧ (approve_user u).is_active = true
    ∧ (reject_user u).is_approved = false ∧ (reject_user u).is_active = false
    ∧ deactivate_user u = Except.ok { u with is_active := false }
    ∧ activate_user u = { u with is_active := true } := by
  have hne : u.role ≠ "admin" := by
    simp only [roleChoices, List.mem_cons, List.not_mem_nil, or_false] at h
    rcases h with h | h | h | h | h <;> simp [h]
  exact ⟨rfl, rfl, rfl, rfl, rfl, rfl, by simp [deactivate_user, hne], rfl⟩

/-- C8 witness: the state machine evaluated on a concretely registered
doctor account. -/
theorem approval_state_machine_witness :
    (register_create "doctor").is_approved = false
    ∧ (register_create "doctor").is_active = false
    ∧ (approve_user (register_create "doctor")).is_approved = true
    ∧ (approve_user (register_create "doctor")).is_active = true
    ∧ (reject_user (register_create "doctor")).is_approved = false
    ∧ (reject_user (register_create "doctor")).is_active = false
    ∧ deactivate_user (register_create "doctor")
        = Except.ok { register_create "doctor" with is_active := false }
    ∧ activate_user (register_create "doctor")
        = { register_create "doctor" with is_active := true } := by
  have h := approval_state_machine "doctor" (register_create "doctor") (by decide)
  exact h

/-- C3 counterexample: a patient-creation event whose creator is a
receptionist invokes the assignment engine twice — once from the post_save
receiver and once from perform_create's explicit call — not exactly once as
claimed. -/
theorem receptionist_creation_invokes_engine_twice :
    perform_create_assign_calls "receptionist" = 2
    ∧ ¬ perform_create_assign_calls "receptionist" = 1 := by decide

/-- C3 (amended): per patient-creation event the engine is invoked once via
the post_save signal for every creator role, plus a second time when the
creator is a receptionist, so the invocation count is 2 for
receptionist-created patients and 1 for all other creator roles. -/
theorem engine_invocations_per_creation (role : String) :
    perform_create_assign_calls role = if role = "receptionist" then 2 else 1 := by
  by_cases h : role = "receptionist" <;>
    simp [perform_create_assign_calls, post_save_assign_calls, h]

/-- C9: the nurse serializer's forbidden-field rejection is dead code, and
out-of-scope writes are silently dropped: to_internal_value keeps only the
four writable declared fields, none of which is in forbidden_fields, so
validate never raises on any input; concretely, a nurse PATCH carrying
priority together with severity succeeds, applies severity, and leaves
priority untouched without any error. -/
theorem nurse_out_of_scope_writes_silently_dropped :
    (∀ input : List (String × String),
      nurse_validate (nurse_to_internal_value input)
        = Except.ok (nurse_to_internal_value input))
    ∧ nurse_patch exRecord [("priority", "Critical"), ("severity", "Worsening")]
        = Except.ok { exRecord with severity := "Worsening" }
    ∧ ({ exRecord with severity := "Worsening" } : PatientRecord).priority = exRecord.priority := by
  refine ⟨?_, rfl, rfl⟩
  intro input
  unfold nurse_validate
  have hnone : (nurse_to_internal_value input).find?
      (fun kv => nurseForbiddenFields.contains kv.1) = none := by
    rw [List.find?_eq_none]
    intro kv hkv
    have h1 : nurseWritableFields.contains kv.1 = true := (List.mem_filter.mp hkv).2
    have h2 : kv.1 ∈ nurseWritableFields := by simpa using h1
    simp only [nurseWritableFields, List.mem_cons, List.not_mem_nil, or_false] at h2
    rcases h2 with h | h | h | h <;> simp [nurseForbiddenFields, h]
  rw [hnone]

/-- A doctor or nurse sees no patient they are not linked to by an
Assignment row: the role-filtered queryset never matches such a patient
id. -/
theorem linked_filter_any_false (db : DB) (u : User) (pid : Nat)
    (hnolink : ∀ a ∈ db.assignments, a.userId = u.id → a.patientId ≠ pid) :
    ((db.patients.filter (fun p =>
        db.assignments.any (fun a => a.patientId == p.id && a.userId == u.id))).any
      (fun p => p.id == pid)) = false := by
  rw [List.any_eq_false]
  intro p hp
  obtain ⟨hpmem, hlink⟩ := List.mem_filter.mp hp
  simp only [List.any_eq_true, Bool.and_eq_true, beq_iff_eq] at hlink
  obtain ⟨a, ha, hap, hau⟩ := hlink
  simp only [beq_iff_eq]
  intro hpe
  exact hnolink a ha hau (hap.trans hpe)

/-- C7: the two denial policies are distinct: a doctor or nurse requesting a
patient not linked to them by an Assignment — in particular one in their own
hospital — receives not-found (the queryset hides it), while their
role-capability violation on patient creation surfaces as an explicit
forbidden (IsNotNurse/IsNotDoctor raise PermissionDenied); and a
hospital_admin's cross-tenant request likewise surfaces as not-found, never
forbidden. -/
theorem denial_notfound_vs_forbidden (db : DB) (u : User) (pid : Nat)
    (hauth : u.isAuthenticated = true)
    (hrole : u.role = "doctor" ∨ u.role = "nurse")
    (hnolink : ∀ a ∈ db.assignments, a.userId = u.id → a.patientId ≠ pid) :
    retrieve_patient db u pid = Outcome.notFound
    ∧ create_patient_gate u = Outcome.forbidden
    ∧ (∀ v : User, v.isAuthenticated = true → v.role = "hospital_admin" →
        retrieve_patient db v pid = Outcome.notFound) := by
  have hperm : patientAccessPermission u = true := by
    rcases hrole with h | h <;> simp [patientAccessPermission, hauth, h]
  refine ⟨?_, ?_, ?_⟩
  · unfold retrieve_patient
    rw [if_neg (by simp [hauth]), if_neg (by simp [hperm])]
    have hq : (patient_queryset db u).any (fun p => p.id == pid) = false := by
      rcases hrole with h | h
      · unfold patient_queryset
        rw [if_neg (by simp [hauth]), if_neg (by rw [h]; decide), if_pos h]
        exact linked_filter_any_false db u pid hnolink
      · unfold patient_queryset
        rw [if_neg (by simp [hauth]), if_neg (by rw [h]; decide),
          if_neg (by rw [h]; decide), if_pos h]
        exact linked_filter_any_false db u pid hnolink
    rw [if_neg (by simp [hq])]
  · unfold create_patient_gate
    rw [if_neg (by simp [hauth]), if_neg (by simp [hperm])]
    rcases hrole with h | h
    · rw [if_neg (by rw [h]; decide), if_pos h]
    · rw [if_pos h]
  · intro v hv hrolev
    have hpermv : patientAccessPermission v = true := by
      simp [patientAccessPermission, hv, hrolev]
    unfold retrieve_patient
    rw [if_neg (by simp [hv]), if_neg (by simp [hpermv])]
    have hq : patient_queryset db v = [] := by
      unfold patient_queryset
      rw [if_neg (by simp [hv]), if_neg (by rw [hrolev]; decide),
        if_neg (by rw [hrolev]; decide), if_neg (by rw [hrolev]; decide),
        if_neg (by rw [hrolev]; intro hcon; exact absurd hcon.1 (by decide))]
    rw [hq]
    simp

/-- C7 witness: in the concrete state, the doctor — linked to patient 1 but
not to any patient with id 2 — gets not-found on id 2 and forbidden on
create, and a hospital_admin principal gets not-found. -/
theorem denial_notfound_vs_forbidden_witness :
    retrieve_patient exDb exDoctor 2 = Outcome.notFound
    ∧ create_patient_gate exDoctor = Outcome.forbidden := by
  have h := denial_notfound_vs_forbidden exDb exDoctor 2 (by decide)
    (Or.inl (by decide)) (by decide)
  exact ⟨h.1, h.2.1⟩

/-- C1 counterexample: in the concrete state exDb the patient already holds
assignment exAssign1, no release happens, and a further assign_patient call
succeeds and leaves the patient with two assignment rows. -/
theorem assign_creates_second_assignment :
    patientAssignCount exDb exPatient.id = 1
    ∧ (assign_patient exDb exPatient 5).1.isSome = true
    ∧ patientAssignCount (assign_patient exDb exPatient 5).2 exPatient.id = 2 := by decide

/-- One allocateBed call adds at most one assignment row for the patient. -/
theorem patientAssignCount_allocateBed_le (db : DB) (p : Patient) (sid : Nat)
    (now : Int) (pid : Nat) :
    patientAssignCount (allocateBed db p sid now).2 pid
      ≤ patientAssignCount db pid + 1 := by
  unfold allocateBed
  rcases hb : findAvailableBed db p.hospitalId with _ | bed
  · simp
  · simp only [patientAssignCount, List.filter_append, List.length_append]
    have h1 : (List.filter (fun a => a.patientId == pid)
        [mkAssign db p sid bed.id now]).length ≤ 1 := by
      simp only [List.filter_cons, List.filter_nil]
      split <;> simp
    omega

/-- The release loop deletes every assignment row of the patient. -/
theorem patientAssignCount_release_self (db : DB) (p : Patient) :
    patientAssignCount (releasePatient db p) p.id = 0 := by
  unfold patientAssignCount releasePatient
  rw [List.length_eq_zero, List.filter_eq_nil_iff]
  intro a ha
  have h2 := (List.mem_filter.mp ha).2
  simp only [Bool.not_eq_eq_eq_not, Bool.not_true, beq_eq_false_iff_ne] at h2
  simp [h2]

/-- C1 (amended): a single assign_patient call on a patient with no current
assignment leaves at most one, and reassign_patient always leaves at most
one; but assign_patient performs no already-assigned check, so (see the
counterexample) a call on an already-assigned patient creates a second
assignment whenever staff and a free bed are available — the at-most-one
invariant holds only when assign is not re-run without a release. -/
theorem single_call_assignment_bound (db : DB) (p : Patient) (s : User) (now : Int) :
    (patientAssignCount db p.id = 0 →
      patientAssignCount (assign_patient db p now).2 p.id ≤ 1)
    ∧ patientAssignCount (reassign_patient db p s now).2 p.id ≤ 1 := by
  constructor
  · intro h
    unfold assign_patient
    rcases hps : pickStaff db p with _ | st
    · show patientAssignCount db p.id ≤ 1
      omega
    · show patientAssignCount (allocateBed db p st.id now).2 p.id ≤ 1
      have := patientAssignCount_allocateBed_le db p st.id now p.id
      omega
  · unfold reassign_patient
    have h0 := patientAssignCount_release_self db p
    have := patientAssignCount_allocateBed_le (releasePatient db p) p s.id now p.id
    omega

/-- C1 amended witness: from the fresh concrete state with no assignment,
one engine call leaves at most one assignment for the patient; and from the
concrete state where the patient is already assigned, a reassign still
leaves at most one. -/
theorem single_call_assignment_bound_witness :
    patientAssignCount (assign_patient exDbFresh exPatient 5).2 exPatient.id ≤ 1
    ∧ patientAssignCount (reassign_patient exDb exPatient exDoctor 5).2 exPatient.id ≤ 1 :=
  ⟨(single_call_assignment_bound exDbFresh exPatient exDoctor 5).1 (by decide),
    (single_call_assignment_bound exDb exPatient exDoctor 5).2⟩

/-- C5 counterexample: a deadline that fires between the Assignment insert
and the bed flip (k = 1) is reported as an absent assignment, yet the
transaction is not aborted: the state differs from the initial one, the
inserted Assignment row is committed, and its bed is still available —
"aborted with no partial writes" is false. -/
theorem timeout_commits_partial_writes :
    (assign_patient_timeout exDbFresh exPatient 5 1).1 = none
    ∧ (assign_patient_timeout exDbFresh exPatient 5 1).2 ≠ exDbFresh
    ∧ patientAssignCount (assign_patient_timeout exDbFresh exPatient 5 1).2 exPatient.id = 1
    ∧ ((assign_patient_timeout exDbFresh exPatient 5 1).2.resources.filter
        (fun r => r.availability)).length = 1 := by decide

/-- C5 (amended): assign_patient never raises to its caller (it is a total
function into an optional assignment): a CapacityUnavailable outcome — no
staff or no bed — is reported as an absent assignment with the state
unchanged, and a deadline that fires before the success-path writes complete
is likewise reported as an absent assignment; but the caught timeout does
not roll the transaction back, so writes already performed remain committed
(see the counterexample). -/
theorem assign_never_raises_capacity_unchanged (db : DB) (p : Patient) (now : Int) :
    ((assign_patient db p now).1 = none → (assign_patient db p now).2 = db)
    ∧ (∀ k, k < assignWriteCount → (assign_patient_timeout db p now k).1 = none) := by
  constructor
  · intro h
    unfold assign_patient at h ⊢
    rcases hps : pickStaff db p with _ | st
    · rfl
    · rw [hps] at h
      have h2 : (allocateBed db p st.id now).1 = none := h
      show (allocateBed db p st.id now).2 = db
      unfold allocateBed at h2 ⊢
      rcases hb : findAvailableBed db p.hospitalId with _ | bed
      · rfl
      · rw [hb] at h2
        have h3 : some (mkAssign db p st.id bed.id now) = none := h2
        cases h3
  · intro k hk
    unfold assign_patient_timeout
    rcases hps : pickStaff db p with _ | st
    · rfl
    · rcases hb : findAvailableBed db p.hospitalId with _ | bed
      · rfl
      · have hk2 : k = 0 ∨ k = 1 := by
          unfold assignWriteCount at hk
          omega
        rcases hk2 with rfl | rfl <;> rfl

/-- C5 amended witness: with no staff in the hospital, the engine reports an
absent assignment and the state is unchanged, and an interrupted run reports
an absent assignment. -/
theorem assign_never_raises_capacity_unchanged_witness :
    (assign_patient exDbNoStaff exPatient 5).2 = exDbNoStaff
    ∧ (assign_patient_timeout exDbNoStaff exPatient 5 1).1 = none := by
  have h := assign_never_raises_capacity_unchanged exDbNoStaff exPatient 5
  exact ⟨h.1 (by decide), h.2 1 (by decide)⟩

/-- C6: reassign_patient releases first and acquires second: every bed held
by one of the patient's assignments is available again in the released
state, the released state holds no assignment row for the patient, the bed
search runs on the released state, and when it fails the final state is
exactly the released state — the patient ends with no assignment — while on
success the patient ends with exactly the one new assignment row. -/
theorem reassign_release_then_acquire (db : DB) (p : Patient) (s : User) (now : Int) :
    (∀ r ∈ db.resources,
        (∃ a ∈ db.assignments, a.patientId = p.id ∧ a.resourceId = r.id) →
        ∃ r2 ∈ (releasePatient db p).resources, r2.id = r.id ∧ r2.availability = true)
    ∧ patientAssignCount (releasePatient db p) p.id = 0
    ∧ ((reassign_patient db p s now).1 = none →
        (reassign_patient db p s now).2 = releasePatient db p
        ∧ patientAssignCount (reassign_patient db p s now).2 p.id = 0)
    ∧ (∀ a, (reassign_patient db p s now).1 = some a →
        (reassign_patient db p s now).2.assignments.filter
          (fun x => x.patientId == p.id) = [a]) := by
  refine ⟨?_, patientAssignCount_release_self db p, ?_, ?_⟩
  · rintro r hr ⟨a, ha, hap, har⟩
    have hany : (db.assignments.filter (fun x => x.patientId == p.id)).any
        (fun x => x.resourceId == r.id) = true := by
      rw [List.any_eq_true]
      exact ⟨a, List.mem_filter.mpr ⟨ha, by simp [hap]⟩, by simp [har]⟩
    refine ⟨{ r with availability := true }, ?_, rfl, rfl⟩
    unfold releasePatient
    simp only [List.mem_map]
    exact ⟨r, hr, by simp [hany]⟩
  · intro h
    unfold reassign_patient at h ⊢
    unfold allocateBed at h ⊢
    rcases hb : findAvailableBed (releasePatient db p) p.hospitalId with _ | bed
    · exact ⟨rfl, patientAssignCount_release_self db p⟩
    · rw [hb] at h
      have h3 : some (mkAssign (releasePatient db p) p s.id bed.id now) = none := h
      cases h3
  · intro a h
    unfold reassign_patient at h ⊢
    unfold allocateBed at h ⊢
    rcases hb : findAvailableBed (releasePatient db p) p.hospitalId with _ | bed
    · rw [hb] at h
      have h3 : (none : Option Assignment) = some a := h
      cases h3
    · rw [hb] at h
      have h3 : some (mkAssign (releasePatient db p) p s.id bed.id now) = some a := h
      have ha : mkAssign (releasePatient db p) p s.id bed.id now = a := by
        injection h3
      subst ha
      show ((releasePatient db p).assignments
          ++ [mkAssign (releasePatient db p) p s.id bed.id now]).filter
          (fun x => x.patientId == p.id)
        = [mkAssign (releasePatient db p) p s.id bed.id now]
      rw [List.filter_append]
      have h1 : (releasePatient db p).assignments.filter
          (fun x => x.patientId == p.id) = [] := by
        have hz := patientAssignCount_release_self db p
        unfold patientAssignCount at hz
        exact List.length_eq_zero.mp hz
      rw [h1]
      simp [mkAssign]

/-- C6 witness: reassigning the concrete already-assigned patient releases
bed 1 and re-acquires it for the new assignment, leaving the patient with
exactly that one assignment row. -/
theorem reassign_release_then_acquire_witness :
    (reassign_patient exDb exPatient exDoctor 5).2.assignments.filter
      (fun x => x.patientId == exPatient.id)
      = [{ id := 2, patientId := 1, resourceId := 1, userId := 1, assignmentTime := 5 }] :=
  (reassign_release_then_acquire exDb exPatient exDoctor 5).2.2.2
    { id := 2, patientId := 1, resourceId := 1, userId := 1, assignmentTime := 5 } (by decide)

/-- minByFirst yields none exactly on the empty list. -/
theorem minByFirst_eq_none {α : Type _} {w : α → Nat} {l : List α} :
    minByFirst w l = none ↔ l = [] := by
  cases l with
  | nil => simp [minByFirst]
  | cons x xs =>
    constructor
    · intro h
      exfalso
      revert h
      unfold minByFirst
      cases hr : minByFirst w xs with
      | none =>
        intro h
        exact Option.noConfusion h
      | some b =>
        intro h
        have h2 : (if w b < w x then some b else some x) = none := h
        by_cases hc : w b < w x
        · rw [if_pos hc] at h2
          exact Option.noConfusion h2
        · rw [if_neg hc] at h2
          exact Option.noConfusion h2
    · intro h
      cases h

/-- minByFirst yields a member of the list. -/
theorem minByFirst_mem {α : Type _} {w : α → Nat} {l : List α} {b : α}
    (h : minByFirst w l = some b) : b ∈ l := by
  induction l with
  | nil => exact Option.noConfusion h
  | cons x xs ih =>
    revert h
    unfold minByFirst
    cases hr : minByFirst w xs with
    | none =>
      intro h
      have h2 : some x = some b := h
      injection h2 with h3
      subst h3
      exact List.mem_cons_self x xs
    | some c =>
      intro h
      have h2 : (if w c < w x then some c else some x) = some b := h
      by_cases hc : w c < w x
      · rw [if_pos hc] at h2
        injection h2 with h3
        subst h3
        exact List.mem_cons_of_mem x (ih hr)
      · rw [if_neg hc] at h2
        injection h2 with h3
        subst h3
        exact List.mem_cons_self x xs

/-- minByFirst yields an element of minimal weight. -/
theorem minByFirst_min {α : Type _} {w : α → Nat} {l : List α} :
    ∀ b : α, minByFirst w l = some b → ∀ x ∈ l, w b ≤ w x := by
  induction l with
  | nil =>
    intro b h
    exact Option.noConfusion h
  | cons x xs ih =>
    intro b
    unfold minByFirst
    cases hr : minByFirst w xs with
    | none =>
      intro h y hy
      have h2 : some x = some b := h
      injection h2 with h3
      subst h3
      have hxs : xs = [] := minByFirst_eq_none.mp hr
      subst hxs
      rcases List.mem_cons.mp hy with rfl | hy2
      · exact le_refl _
      · cases hy2
    | some c =>
      intro h y hy
      have h2 : (if w c < w x then some c else some x) = some b := h
      by_cases hc : w c < w x
      · rw [if_pos hc] at h2
        injection h2 with h3
        subst h3
        rcases List.mem_cons.mp hy with rfl | hy2
        · exact le_of_lt hc
        · exact ih _ hr y hy2
      · rw [if_neg hc] at h2
        injection h2 with h3
        subst h3
        rcases List.mem_cons.mp hy with rfl | hy2
        · exact le_refl _
        · exact le_trans (Nat.le_of_not_lt hc) (ih _ hr y hy2)

/-- find_available_staff returns none exactly when the hospital has no
approved, active staff member of the role. -/
theorem find_staff_none_iff {db : DB} {hid : Nat} {role : String} :
    find_available_staff db hid role = none
      ↔ ∀ u ∈ db.users, isCandidate hid role u = false := by
  unfold find_available_staff
  rw [minByFirst_eq_none, List.filter_eq_nil_iff]
  constructor
  · intro h u hu
    have := h u hu
    simpa using this
  · intro h u hu
    simp [h u hu]

/-- A successful find_available_staff returns a candidate of minimal
workload among the candidates of that role. -/
theorem find_staff_some_spec {db : DB} {hid : Nat} {role : String} {s : User}
    (h : find_available_staff db hid role = some s) :
    s ∈ db.users ∧ isCandidate hid role s = true
    ∧ ∀ v ∈ db.users, isCandidate hid role v = true → workload db s ≤ workload db v := by
  unfold find_available_staff at h
  have hm := minByFirst_mem h
  have hmin := minByFirst_min _ h
  obtain ⟨hs1, hs2⟩ := List.mem_filter.mp hm
  exact ⟨hs1, hs2, fun v hv hcv => hmin v (List.mem_filter.mpr ⟨hv, hcv⟩)⟩

/-- A candidate of a role query has exactly that role. -/
theorem isCandidate_role {hid : Nat} {role : String} {u : User}
    (h : isCandidate hid role u = true) : u.role = role := by
  unfold isCandidate at h
  simp only [Bool.and_eq_true, beq_iff_eq] at h
  exact h.1.1.2

/-- C4: the staff-selection rule: a selected staff member is an approved,
active doctor or nurse of the patient's hospital with minimal workload among
the candidates of their role; High/Critical patients get a doctor whenever a
doctor candidate exists and fall back to a nurse otherwise, Low/Medium
patients get a nurse whenever a nurse candidate exists and fall back to a
doctor otherwise; and when neither class has a candidate the pick is none
and assign_patient reports the capacity outcome as an absent assignment. -/
theorem staff_selection_rule (db : DB) (p : Patient) (now : Int) :
    (∀ s, pickStaff db p = some s →
      s ∈ db.users ∧ (s.role = "doctor" ∨ s.role = "nurse")
      ∧ isCandidate p.hospitalId s.role s = true
      ∧ ∀ v ∈ db.users, isCandidate p.hospitalId s.role v = true →
          workload db s ≤ workload db v)
    ∧ (isHighPriority p = true →
        (∃ v ∈ db.users, isCandidate p.hospitalId "doctor" v = true) →
        ∃ s, pickStaff db p = some s ∧ s.role = "doctor")
    ∧ (isHighPriority p = false →
        (∃ v ∈ db.users, isCandidate p.hospitalId "nurse" v = true) →
        ∃ s, pickStaff db p = some s ∧ s.role = "nurse")
    ∧ (isHighPriority p = true →
        (∀ v ∈ db.users, isCandidate p.hospitalId "doctor" v = false) →
        (∃ v ∈ db.users, isCandidate p.hospitalId "nurse" v = true) →
        ∃ s, pickStaff db p = some s ∧ s.role = "nurse")
    ∧ (isHighPriority p = false →
        (∀ v ∈ db.users, isCandidate p.hospitalId "nurse" v = false) →
        (∃ v ∈ db.users, isCandidate p.hospitalId "doctor" v = true) →
        ∃ s, pickStaff db p = some s ∧ s.role = "doctor")
    ∧ ((∀ v ∈ db.users, isCandidate p.hospitalId "doctor" v = false) →
        (∀ v ∈ db.users, isCandidate p.hospitalId "nurse" v = false) →
        pickStaff db p = none ∧ (assign_patient db p now).1 = none) := by
  refine ⟨?_, ?_, ?_, ?_, ?_, ?_⟩
  · intro s hs
    unfold pickStaff at hs
    by_cases hp : isHighPriority p = true
    · rw [if_pos hp] at hs
      cases hd : find_available_staff db p.hospitalId "doctor" with
      | some d =>
        rw [hd] at hs
        injection hs with hs1
        subst hs1
        obtain ⟨h1, h2, h3⟩ := find_staff_some_spec hd
        have hrole := isCandidate_role h2
        exact ⟨h1, Or.inl hrole, by rw [hrole]; exact h2, by rw [hrole]; exact h3⟩
      | none =>
        rw [hd] at hs
        obtain ⟨h1, h2, h3⟩ := find_staff_some_spec hs
        have hrole := isCandidate_role h2
        exact ⟨h1, Or.inr hrole, by rw [hrole]; exact h2, by rw [hrole]; exact h3⟩
    · rw [if_neg hp] at hs
      cases hn : find_available_staff db p.hospitalId "nurse" with
      | some n =>
        rw [hn] at hs
        injection hs with hs1
        subst hs1
        obtain ⟨h1, h2, h3⟩ := find_staff_some_spec hn
        have hrole := isCandidate_role h2
        exact ⟨h1, Or.inr hrole, by rw [hrole]; exact h2, by rw [hrole]; exact h3⟩
      | none =>
        rw [hn] at hs
        obtain ⟨h1, h2, h3⟩ := find_staff_some_spec hs
        have hrole := isCandidate_role h2
        exact ⟨h1, Or.inl hrole, by rw [hrole]; exact h2, by rw [hrole]; exact h3⟩
  · intro hp hex
    unfold pickStaff
    rw [if_pos hp]
    cases hd : find_available_staff db p.hospitalId "doctor" with
    | some d =>
      exact ⟨d, rfl, isCandidate_role (find_staff_some_spec hd).2.1⟩
    | none =>
      obtain ⟨v, hv, hcv⟩ := hex
      have := find_staff_none_iff.mp hd v hv
      rw [hcv] at this
      cases this
  · intro hp hex
    unfold pickStaff
    rw [if_neg (by simp [hp])]
    cases hn : find_available_staff db p.hospitalId "nurse" with
    | some n =>
      exact ⟨n, rfl, isCandidate_role (find_staff_some_spec hn).2.1⟩
    | none =>
      obtain ⟨v, hv, hcv⟩ := hex
      have := find_staff_none_iff.mp hn v hv
      rw [hcv] at this
      cases this
  · intro hp hnodoc hex
    unfold pickStaff
    rw [if_pos hp]
    have hd : find_available_staff db p.hospitalId "doctor" = none :=
      find_staff_none_iff.mpr hnodoc
    rw [hd]
    cases hn : find_available_staff db p.hospitalId "nurse" with
    | some n =>
      exact ⟨n, rfl, isCandidate_role (find_staff_some_spec hn).2.1⟩
    | none =>
      obtain ⟨v, hv, hcv⟩ := hex
      have := find_staff_none_iff.mp hn v hv
      rw [hcv] at this
      cases this
  · intro hp hnonurse hex
    unfold pickStaff
    rw [if_neg (by simp [hp])]
    have hn : find_available_staff db p.hospitalId "nurse" = none :=
      find_staff_none_iff.mpr hnonurse
    rw [hn]
    cases hd : find_available_staff db p.hospitalId "doctor" with
    | some d =>
      exact ⟨d, rfl, isCandidate_role (find_staff_some_spec hd).2.1⟩
    | none =>
      obtain ⟨v, hv, hcv⟩ := hex
      have := find_staff_none_iff.mp hd v hv
      rw [hcv] at this
      cases this
  · intro hnodoc hnonurse
    have hd : find_available_staff db p.hospitalId "doctor" = none :=
      find_staff_none_iff.mpr hnodoc
    have hn : find_available_staff db p.hospitalId "nurse" = none :=
      find_staff_none_iff.mpr hnonurse
    have hpick : pickStaff db p = none := by
      unfold pickStaff
      by_cases hp : isHighPriority p = true
      · rw [if_pos hp, hd, hn]
      · rw [if_neg hp, hn, hd]
    refine ⟨hpick, ?_⟩
    unfold assign_patient
    rw [hpick]

/-- C4 witness: in the concrete state the Low-priority patient has no nurse
candidate and one doctor candidate, so the fallback picks the doctor, who is
a minimal-workload candidate. -/
theorem staff_selection_rule_witness :
    (∃ s, pickStaff exDb exPatient = some s ∧ s.role = "doctor")
    ∧ (exDoctor ∈ exDb.users ∧ (exDoctor.role = "doctor" ∨ exDoctor.role = "nurse")
        ∧ isCandidate exPatient.hospitalId exDoctor.role exDoctor = true
        ∧ ∀ v ∈ exDb.users, isCandidate exPatient.hospitalId exDoctor.role v = true →
            workload exDb exDoctor ≤ workload exDb v) := by
  have h := staff_selection_rule exDb exPatient 5
  refine ⟨h.2.2.2.2.1 (by decide) (by decide) ⟨exDoctor, by decide, by decide⟩, ?_⟩
  exact h.1 exDoctor (by decide)

/-- With pairwise distinct resource ids, rows with equal ids are equal. -/
theorem resource_id_inj {db : DB} (hnd : ResIdsNodup db) {r1 r2 : Resource}
    (h1 : r1 ∈ db.resources) (h2 : r2 ∈ db.resources) (h : r1.id = r2.id) : r1 = r2 :=
  List.inj_on_of_nodup_map hnd h1 h2 h

/-- The bed returned by the availability query is an available bed of the
hospital. -/
theorem findAvailableBed_spec {db : DB} {hid : Nat} {b : Resource}
    (h : findAvailableBed db hid = some b) :
    b ∈ db.resources ∧ b.hospitalId = hid ∧ b.rtype = "Bed" ∧ b.availability = true := by
  unfold findAvailableBed at h
  have hb : b ∈ db.resources.filter
      (fun r => r.hospitalId == hid && r.rtype == "Bed" && r.availability) := by
    cases hf : db.resources.filter
        (fun r => r.hospitalId == hid && r.rtype == "Bed" && r.availability) with
    | nil =>
      rw [hf] at h
      exact Option.noConfusion h
    | cons x xs =>
      rw [hf] at h
      have h2 : some x = some b := h
      injection h2 with h3
      rw [← h3]
      exact List.mem_cons_self x xs
  obtain ⟨hmem, hcond⟩ := List.mem_filter.mp hb
  simp only [Bool.and_eq_true, beq_iff_eq] at hcond
  exact ⟨hmem, hcond.1.1, hcond.1.2, hcond.2⟩

/-- Under the invariant, an available resource is referenced by no
assignment row. -/
theorem no_assign_on_available {db : DB} (hinv : BedInvariant db) (hnd : ResIdsNodup db)
    {b : Resource} (hb : b ∈ db.resources) (hav : b.availability = true) :
    ∀ a ∈ db.assignments, a.resourceId ≠ b.id := by
  intro a ha heq
  obtain ⟨r, hr, hrid, hrav⟩ := hinv.1 a ha
  have hrb : r = b := resource_id_inj hnd hr hb (by rw [hrid, heq])
  rw [hrb, hav] at hrav
  exact Bool.noConfusion hrav

/-- Under the invariant, an available resource has assignment count zero. -/
theorem resAssignCount_zero_of_available {db : DB} (hinv : BedInvariant db)
    (hnd : ResIdsNodup db) {b : Resource} (hb : b ∈ db.resources)
    (hav : b.availability = true) : resAssignCount db b.id = 0 := by
  unfold resAssignCount
  rw [List.length_eq_zero, List.filter_eq_nil_iff]
  intro a ha
  simp only [beq_iff_eq]
  exact no_assign_on_available hinv hnd hb hav a ha

/-- Filtering a filtered list never yields more matches than filtering the
original list. -/
theorem length_filter_filter_le {α : Type _} (q s : α → Bool) (l : List α) :
    ((l.filter q).filter s).length ≤ (l.filter s).length := by
  induction l with
  | nil => simp
  | cons a t ih =>
    simp only [List.filter_cons]
    by_cases hq : q a = true
    · rw [if_pos hq]
      simp only [List.filter_cons]
      by_cases hs : s a = true
      · rw [if_pos hs, if_pos hs]
        simp only [List.length_cons]
        omega
      · rw [if_neg hs, if_neg hs]
        exact ih
    · rw [if_neg hq]
      by_cases hs : s a = true
      · rw [if_pos hs]
        simp only [List.length_cons]
        omega
      · rw [if_neg hs]
        exact ih

/-- Mapping an id-preserving function over the resources keeps their ids
pairwise distinct. -/
theorem resIdsNodup_map {db : DB} (hnd : ResIdsNodup db) (f : Resource → Resource)
    (hf : ∀ r, (f r).id = r.id) :
    ((db.resources.map f).map Resource.id).Nodup := by
  rw [List.map_map]
  have hcomp : (Resource.id ∘ f) = Resource.id := funext hf
  rw [hcomp]
  exact hnd

/-- Inserting one assignment on an available bed and flipping exactly that
bed to unavailable preserves the bed invariant. -/
theorem bed_invariant_insert {db : DB} {b : Resource} {a : Assignment}
    (hinv : BedInvariant db) (hnd : ResIdsNodup db)
    (hbmem : b ∈ db.resources) (hbav : b.availability = true)
    (hasgn : a.resourceId = b.id) :
    BedInvariant
      { db with
        assignments := db.assignments ++ [a]
        resources := db.resources.map
          (fun r => if r.id = b.id then { r with availability := false } else r)
        nextAssignmentId := db.nextAssignmentId + 1 } := by
  refine ⟨?_, ?_, ?_⟩
  · intro x hx
    rcases List.mem_append.mp hx with hx1 | hx2
    · obtain ⟨r, hr, hrid, hrav⟩ := hinv.1 x hx1
      refine ⟨if r.id = b.id then { r with availability := false } else r,
        List.mem_map_of_mem _ hr, ?_, ?_⟩
      · by_cases h : r.id = b.id
        · rw [if_pos h]
          exact hrid
        · rw [if_neg h]
          exact hrid
      · by_cases h : r.id = b.id
        · rw [if_pos h]
        · rw [if_neg h]
          exact hrav
    · have hxa : x = a := List.mem_singleton.mp hx2
      subst hxa
      refine ⟨{ b with availability := false },
        ?_, by simpa using hasgn.symm, rfl⟩
      have := List.mem_map_of_mem
        (fun r => if r.id = b.id then { r with availability := false } else r) hbmem
      simpa using this
  · intro r2 hr2
    obtain ⟨r, hr, hfr⟩ := List.mem_map.mp hr2
    have hid : r2.id = r.id := by
      rw [← hfr]
      by_cases h : r.id = b.id <;> simp [h]
    show resAssignCount _ r2.id ≤ 1
    unfold resAssignCount
    simp only [List.filter_append, List.length_append]
    by_cases hcase : r.id = b.id
    · have hzero : (db.assignments.filter (fun x => x.resourceId == b.id)).length = 0 := by
        have := resAssignCount_zero_of_available hinv hnd hbmem hbav
        unfold resAssignCount at this
        exact this
      rw [hid, hcase]
      have hone : (List.filter (fun x => x.resourceId == b.id) [a]).length ≤ 1 := by
        simp only [List.filter_cons, List.filter_nil]
        split <;> simp
      omega
    · have hsingle : (List.filter (fun x => x.resourceId == r2.id) [a]).length = 0 := by
        simp only [List.filter_cons, List.filter_nil]
        rw [if_neg]
        · rfl
        · simp only [beq_iff_eq, hasgn, hid]
          intro hcon
          exact hcase hcon.symm
      have hold : (db.assignments.filter (fun x => x.resourceId == r2.id)).length ≤ 1 := by
        have := hinv.2.1 r hr
        unfold resAssignCount at this
        rw [hid]
        exact this
      omega
  · intro r2 hr2 hbed hfalse
    obtain ⟨r, hr, hfr⟩ := List.mem_map.mp hr2
    by_cases hcase : r.id = b.id
    · refine ⟨a, List.mem_append.mpr (Or.inr (List.mem_singleton.mpr rfl)), ?_⟩
      rw [hasgn, ← hfr]
      by_cases h : r.id = b.id <;> simp [h, hcase]
    · have hrr : r2 = r := by
        rw [← hfr, if_neg hcase]
      obtain ⟨a2, ha2, haid⟩ := hinv.2.2 r hr
        (by rw [← hrr]; exact hbed) (by rw [← hrr]; exact hfalse)
      refine ⟨a2, List.mem_append.mpr (Or.inl ha2), ?_⟩
      rw [haid, hrr]

/-- The release loop preserves the bed invariant and resource-id
distinctness. -/
theorem releasePatient_preserves {db : DB} {p : Patient}
    (hinv : BedInvariant db) (hnd : ResIdsNodup db) :
    BedInvariant (releasePatient db p) ∧ ResIdsNodup (releasePatient db p) := by
  constructor
  · refine ⟨?_, ?_, ?_⟩
    · intro x hx
      have hxA : x ∈ db.assignments := List.mem_of_mem_filter hx
      have hkeep : x.patientId ≠ p.id := by
        have := (List.mem_filter.mp hx).2
        simpa using this
      obtain ⟨r, hr, hrid, hrav⟩ := hinv.1 x hxA
      have hany : ((db.assignments.filter (fun a => a.patientId == p.id)).any
          (fun a => a.resourceId == r.id)) = false := by
        by_contra hcon
        rw [Bool.not_eq_false, List.any_eq_true] at hcon
        obtain ⟨y, hy, hyr⟩ := hcon
        obtain ⟨hyA, hyp⟩ := List.mem_filter.mp hy
        simp only [beq_iff_eq] at hyr hyp
        have hxy : x ≠ y := by
          intro hcon2
          rw [hcon2] at hkeep
          exact hkeep hyp
        have hx2 : x ∈ db.assignments.filter (fun z => z.resourceId == r.id) :=
          List.mem_filter.mpr ⟨hxA, by simp [hrid.symm]⟩
        have hy2 : y ∈ db.assignments.filter (fun z => z.resourceId == r.id) :=
          List.mem_filter.mpr ⟨hyA, by simp [hyr]⟩
        have h2 := two_le_length_of_mem_ne hx2 hy2 hxy
        have hle := hinv.2.1 r hr
        unfold resAssignCount at hle
        omega
      refine ⟨r, ?_, hrid, hrav⟩
      show r ∈ (releasePatient db p).resources
      unfold releasePatient
      simp only [List.mem_map]
      exact ⟨r, hr, by simp [hany]⟩
    · intro r2 hr2
      obtain ⟨r, hr, hfr⟩ := List.mem_map.mp hr2
      have hid : r2.id = r.id := by
        rw [← hfr]
        by_cases h : ((db.assignments.filter (fun a => a.patientId == p.id)).any
            (fun a => a.resourceId == r.id)) = true <;> simp [h]
      show ((db.assignments.filter (fun a => !(a.patientId == p.id))).filter
          (fun a => a.resourceId == r2.id)).length ≤ 1
      have hle := length_filter_filter_le (fun a => !(a.patientId == p.id))
        (fun a => a.resourceId == r2.id) db.assignments
      have hold := hinv.2.1 r hr
      unfold resAssignCount at hold
      rw [hid] at hle ⊢
      omega
    · intro r2 hr2 hbed hfalse
      obtain ⟨r, hr, hfr⟩ := List.mem_map.mp hr2
      by_cases hany : ((db.assignments.filter (fun a => a.patientId == p.id)).any
          (fun a => a.resourceId == r.id)) = true
      · rw [← hfr] at hfalse
        simp [hany] at hfalse
      · have hrr : r2 = r := by
          rw [← hfr]
          simp [hany]
        obtain ⟨a2, ha2, haid⟩ := hinv.2.2 r hr
          (by rw [← hrr]; exact hbed) (by rw [← hrr]; exact hfalse)
        have ha2keep : a2.patientId ≠ p.id := by
          intro hcon
          apply hany
          rw [List.any_eq_true]
          exact ⟨a2, List.mem_filter.mpr ⟨ha2, by simp [hcon]⟩, by simp [haid]⟩
        refine ⟨a2, ?_, by rw [haid, hrr]⟩
        show a2 ∈ (releasePatient db p).assignments
        unfold releasePatient
        exact List.mem_filter.mpr ⟨ha2, by simp [ha2keep]⟩
  · show ((db.resources.map _).map Resource.id).Nodup
    apply resIdsNodup_map hnd
    intro r
    by_cases h : ((db.assignments.filter (fun a => a.patientId == p.id)).any
        (fun a => a.resourceId == r.id)) = true <;> simp [h]

/-- allocateBed preserves the bed invariant and resource-id
distinctness. -/
theorem allocateBed_preserves {db : DB} {p : Patient} {sid : Nat} {now : Int}
    (hinv : BedInvariant db) (hnd : ResIdsNodup db) :
    BedInvariant (allocateBed db p sid now).2
    ∧ ResIdsNodup (allocateBed db p sid now).2 := by
  unfold allocateBed
  rcases hfb : findAvailableBed db p.hospitalId with _ | b
  · exact ⟨hinv, hnd⟩
  · obtain ⟨hbmem, hbhid, hbtype, hbav⟩ := findAvailableBed_spec hfb
    constructor
    · exact bed_invariant_insert hinv hnd hbmem hbav rfl
    · show ((db.resources.map _).map Resource.id).Nodup
      apply resIdsNodup_map hnd
      intro r
      by_cases h : r.id = b.id <;> simp [h]

/-- C2 counterexample: the coupling of Assignment creation and the bed flip
is not atomic against the deadline mechanism: from a state satisfying the
bed invariant, a run of assign_patient whose SIGALRM fires between the
Assignment insert and the bed save (assign_patient_timeout at k = 1) commits
a state that violates the invariant — a committed Assignment whose bed is
still available. -/
theorem timeout_run_violates_bed_invariant :
    BedInvariant exDbFresh ∧ ResIdsNodup exDbFresh
    ∧ ¬ BedInvariant (assign_patient_timeout exDbFresh exPatient 5 1).2 := by decide

/-- C2 (amended): the assignment/bed coupling is an invariant of every
completed engine operation: a completed assign_patient body and
reassign_patient's release-then-acquire each map a state in which every
assignment's bed is unavailable, no resource backs more than one assignment,
and every unavailable bed is held by an assignment, to a state with the same
three properties, resource ids staying pairwise distinct. The two success
writes are atomic only against runs that complete: a deadline firing between
them commits a partial state (see the counterexample). -/
theorem bed_invariant_preserved (db : DB) (p : Patient) (s : User) (now : Int)
    (hinv : BedInvariant db) (hnd : ResIdsNodup db) :
    (BedInvariant (assign_patient db p now).2 ∧ ResIdsNodup (assign_patient db p now).2)
    ∧ (BedInvariant (reassign_patient db p s now).2
        ∧ ResIdsNodup (reassign_patient db p s now).2) := by
  constructor
  · unfold assign_patient
    rcases hps : pickStaff db p with _ | st
    · exact ⟨hinv, hnd⟩
    · exact allocateBed_preserves hinv hnd
  · unfold reassign_patient
    obtain ⟨h1, h2⟩ := releasePatient_preserves (p := p) hinv hnd
    exact allocateBed_preserves h1 h2

/-- C2 witness: the invariant holds in the concrete assigned state and is
preserved by a further assign and by a reassign. -/
theorem bed_invariant_preserved_witness :
    (BedInvariant (assign_patient exDb exPatient 5).2
      ∧ ResIdsNodup (assign_patient exDb exPatient 5).2)
    ∧ (BedInvariant (reassign_patient exDb exPatient exDoctor 5).2
      ∧ ResIdsNodup (reassign_patient exDb exPatient exDoctor 5).2) :=
  bed_invariant_preserved exDb exPatient exDoctor 5 (by decide) (by decide)

end Hras
